import Mathlib

/-!
Verification development for the file-manipulation tool layer of the LocaLM
agent (src/src/agent/tools/filesystem.rs).

The Rust source is shallowly embedded below: every pure computation is a Lean
function over Nat / String / List, machine arithmetic is Nat with explicit
`% 2^32`, and stateful tool executions are pure functions from a typed
argument bundle plus an explicit filesystem state to an outcome record
(result, new state, and whether a write was performed). The asynchronous
I/O of the source is sequential in the source as well (one read, optionally
one write), so explicit state passing is a faithful model.
-/

/-- Model of `serde_json::Value` restricted to the shapes this tool layer
produces and consumes. Numbers are modelled as `Nat` because the source only
reads them with `as_u64`. -/
inductive JsonValue where
  | null : JsonValue
  | bool : Bool → JsonValue
  | num : Nat → JsonValue
  | str : String → JsonValue
  | arr : List JsonValue → JsonValue
  | obj : List (String × JsonValue) → JsonValue

/-- `Option JsonValue` models one field of the argument object: `none` means
the key is absent, `some .null` means the key is present with a null value
(Rust `params.get(k).is_some()` is then true). `as_str`. -/
def jAsStr : Option JsonValue → Option String
  | some (.str s) => some s
  | _ => none

/-- Rust `Value::as_u64` on an optional field. -/
def jAsU64 : Option JsonValue → Option Nat
  | some (.num n) => some n
  | _ => none

/-- Rust `Value::as_bool` on an optional field. -/
def jAsBool : Option JsonValue → Option Bool
  | some (.bool b) => some b
  | _ => none

/-- Lookup in the association list that models a JSON object payload. -/
def lookupData (key : String) : List (String × JsonValue) → Option JsonValue
  | [] => none
  | (k, v) :: rest => if k = key then some v else lookupData key rest

/-- The error taxonomy of the tool layer (`ToolError` in the source). -/
inductive ToolError where
  | invalidParameters : String → ToolError
  | executionFailed : String → ToolError

/-- The success envelope (`ToolResult` in the source); `data` models the
`serde_json::json!` object as an association list in construction order. -/
structure ToolResult where
  success : Bool
  data : List (String × JsonValue)
  message : String

/-! ### String primitives

The Rust functions used by the tools (`str::lines`, `str::matches`,
`str::replace`, `str::replacen`, `str::contains`, `str::trim`,
`str::to_lowercase`, `[&str]::join`, byte length) are modelled from scratch
on `List Char` by structural recursion so that they evaluate by `decide` and
`rfl` on concrete inputs. -/

/-- Split a character list at every occurrence of `sep`; always returns one
more piece than there are separators (so `[[]]` on the empty list). -/
def splitCh (sep : Char) : List Char → List (List Char)
  | [] => [[]]
  | c :: rest =>
    if c = sep then [] :: splitCh sep rest
    else
      match splitCh sep rest with
      | [] => [[c]]
      | l :: ls => (c :: l) :: ls

/-- Drop a single trailing carriage return; applied only to pieces that
were terminated by a line feed, since Rust `str::lines` splits at `\r\n`
and `\n` but keeps a carriage return not followed by a line feed. -/
def stripCr (l : List Char) : List Char :=
  match l.getLast? with
  | some c => if c = '\r' then l.dropLast else l
  | none => l

/-- Turns the `\n`-split pieces of a string into its Rust lines: every
piece except the final one was terminated by a line feed, so one trailing
carriage return is stripped from it; the final piece is unterminated and is
kept verbatim — in particular a trailing `\r` not followed by `\n` stays in
the line — except that an empty final piece (the string ends with `\n`, or
is empty) produces no line. -/
def rustLinesParts : List (List Char) → List String
  | [] => []
  | [lastPiece] => if lastPiece = [] then [] else [String.mk lastPiece]
  | piece :: rest => String.mk (stripCr piece) :: rustLinesParts rest

/-- Model of Rust `str::lines().collect()`. -/
def rustLines (s : String) : List String :=
  rustLinesParts (splitCh '\n' s.data)

/-- Model of `Vec::join("\n")` on the collected lines. -/
def joinWithNl : List String → String
  | [] => ""
  | [x] => x
  | x :: xs => x ++ "\n" ++ joinWithNl xs

/-- ASCII whitespace test used by the `trim` model (the source trims Unicode
whitespace; the extra Unicode code points never occur in the claims). -/
def isWsChar (c : Char) : Bool :=
  c = ' ' || c = '\t' || c = '\n' || c = '\r'

/-- Model of Rust `str::trim`. -/
def strTrim (s : String) : String :=
  String.mk (((s.data.dropWhile isWsChar).reverse.dropWhile isWsChar).reverse)

/-- ASCII lowercasing of one character (the source applies Unicode
`to_lowercase`, which agrees on ASCII; the claims only involve ASCII). -/
def lowerChar (c : Char) : Char :=
  if 65 ≤ c.toNat ∧ c.toNat ≤ 90 then Char.ofNat (c.toNat + 32) else c

/-- Model of Rust `str::to_lowercase`. -/
def lowerStr (s : String) : String :=
  String.mk (s.data.map lowerChar)

/-- Substring test on character lists: some suffix of `s` starts with `pat`. -/
def containsChars (pat : List Char) : List Char → Bool
  | [] => pat.isPrefixOf []
  | c :: rest => pat.isPrefixOf (c :: rest) || containsChars pat rest

/-- Model of Rust `str::contains` with a string pattern. -/
def containsStr (s pat : String) : Bool :=
  containsChars pat.data s.data

/-- Counts non-overlapping occurrences of `pat` in `s`, scanning left to
right, exactly like Rust `s.matches(pat).count()` (an empty pattern matches
at every character boundary). `fuel` bounds the recursion; every step
consumes at least one character, so `s.length + 1` fuel always suffices and
the function stays structurally recursive (hence reducible by `decide`). -/
def countOccurAux (pat : List Char) : Nat → List Char → Nat
  | 0, _ => 0
  | fuel + 1, s =>
    if pat.isPrefixOf s then
      match s with
      | [] => 1
      | _ :: _ => 1 + countOccurAux pat fuel (s.drop (max pat.length 1))
    else
      match s with
      | [] => 0
      | _ :: rest => countOccurAux pat fuel rest

/-- Model of Rust `content.matches(old_string).count()`. -/
def countOccurStr (s pat : String) : Nat :=
  countOccurAux pat.data (s.data.length + 1) s.data

/-- Replace every non-overlapping occurrence of `pat` by `rep`, left to
right, exactly like Rust `str::replace` (an empty pattern inserts `rep` at
every character boundary). Fuel as in `countOccurAux`. -/
def replaceAllAux (pat rep : List Char) : Nat → List Char → List Char
  | 0, s => s
  | fuel + 1, s =>
    if pat.isPrefixOf s then
      match s with
      | [] => rep
      | c :: rest =>
        if pat.isEmpty then rep ++ c :: replaceAllAux pat rep fuel rest
        else rep ++ replaceAllAux pat rep fuel (s.drop pat.length)
    else
      match s with
      | [] => []
      | c :: rest => c :: replaceAllAux pat rep fuel rest

/-- Model of Rust `content.replace(old_string, new_string)`. -/
def replaceAllStr (s pat rep : String) : String :=
  String.mk (replaceAllAux pat.data rep.data (s.data.length + 1) s.data)

/-- Replace the first occurrence of `pat` by `rep`, like Rust
`str::replacen(pat, rep, 1)`. -/
def replaceFirstChars (pat rep : List Char) : List Char → List Char
  | [] => if pat.isEmpty then rep else []
  | c :: rest =>
    if pat.isPrefixOf (c :: rest) then rep ++ (c :: rest).drop pat.length
    else c :: replaceFirstChars pat rep rest

/-- Model of Rust `content.replacen(old_string, new_string, 1)`. -/
def replaceFirstStr (s pat rep : String) : String :=
  String.mk (replaceFirstChars pat.data rep.data s.data)

/-- UTF-8 encoding of one character as a list of byte values (< 256). -/
def charUtf8 (c : Char) : List Nat :=
  let n := c.toNat
  if n < 128 then [n]
  else if n < 2048 then [192 + n / 64, 128 + n % 64]
  else if n < 65536 then [224 + n / 4096, 128 + (n / 64) % 64, 128 + n % 64]
  else [240 + n / 262144, 128 + (n / 4096) % 64, 128 + (n / 64) % 64, 128 + n % 64]

/-- The UTF-8 byte sequence of a string, the iteration order of Rust
`str::bytes`. -/
def strBytes (s : String) : List Nat :=
  s.data.foldr (fun c acc => charUtf8 c ++ acc) []

/-- Byte length of a string, Rust `str::len`. -/
def strByteLen (s : String) : Nat :=
  (strBytes s).length

/-- One lowercase hexadecimal digit. -/
def hexDigit (n : Nat) : Char :=
  Char.ofNat (if n < 10 then 48 + n else 87 + n)

/-- Minimal-width lowercase hexadecimal digits of `n`, most significant
first. `fuel` bounds the recursion (`n + 1` always suffices since the
argument is divided by 16 at every step). -/
def toHexAux : Nat → Nat → List Char → List Char
  | 0, _, acc => acc
  | fuel + 1, n, acc =>
    if n < 16 then hexDigit (n % 16) :: acc
    else toHexAux fuel (n / 16) (hexDigit (n % 16) :: acc)

/-- Minimal-width lowercase hexadecimal rendering of `n`. -/
def toHexDigits (n : Nat) : List Char :=
  toHexAux (n + 1) n []

/-- Rust `format!("{:02x}", n)`: lowercase hexadecimal, zero-padded on the
left to at least two digits. -/
def hex02 (n : Nat) : String :=
  let ds := toHexDigits n
  String.mk (if ds.length < 2 then '0' :: ds else ds)

/-- `compute_line_hash` from filesystem.rs: a 32-bit accumulator starting at
2166136261; for each byte of the line, multiply by 16777619 with wraparound
(`% 2^32`) and XOR the byte in; finally mask to the low 12 bits
(`&&& 0xFFF`, that is `% 4096`) and render with `{:02x}`. -/
def compute_line_hash (line : String) : String :=
  let hash := (strBytes line).foldl
    (fun h b => ((h * 16777619) % 4294967296) ^^^ b) 2166136261
  hex02 (hash % 4096)

/-! ### FileEditTool

`FileEditTool::execute` is modelled as a pure function from the argument
bundle and the content currently stored at the target path (`none` when
`read_to_string` fails, for instance because the file does not exist) to an
outcome. The outcome records the tool result, the content at the target
path afterwards, and whether the write call was reached. The operating
system error text interpolated into the read-failure message is abstracted
to a fixed placeholder; no claim depends on it. -/

structure EditParams where
  path : Option JsonValue
  old_string : Option JsonValue
  new_string : Option JsonValue
  replace_all : Option JsonValue
  line_number : Option JsonValue
  hash : Option JsonValue

structure EditOutcome where
  result : Except ToolError ToolResult
  file : Option String
  wrote : Bool

/-- Read-failure message (OS error text abstracted). -/
def readFailMsg : String :=
  "Impossible de lire le fichier: <erreur E/S>"

def lineNotExistMsg (line_number count : Nat) : String :=
  "Line " ++ toString line_number ++ " does not exist (file has " ++
    toString count ++ " lines)"

def hashMismatchMsg (expected actual : String) : String :=
  "Hash mismatch! Expected \x27" ++ expected ++ "\x27 but found \x27" ++
    actual ++ "\x27. The line content has changed since file_read."

def notFoundMsg : String :=
  "old_string introuvable dans le fichier. Vérifiez l\x27indentation et les espaces."

def foundTimesMsg (count : Nat) : String :=
  "old_string trouvé " ++ toString count ++
    " fois. Ajoutez plus de contexte pour le rendre unique, ou utilisez replace_all=true."

def oldEqNewMsg : String :=
  "old_string and new_string must be different"

def modeName (hashline_mode : Bool) : String :=
  if hashline_mode then "hashline" else "str_replace"

def editedMsg (path mode : String) : String :=
  "Fichier édité: " ++ path ++ " (1 remplacement, mode: " ++ mode ++ ")"

/-- The body of the `let new_content = if hashline_mode { .. } else { .. }`
expression of `FileEditTool::execute`: either the new whole-file content or
the error of an early `return`. -/
def editNewContent (hashline_mode : Bool) (p : EditParams)
    (new_string content : String) : Except ToolError String :=
  if hashline_mode then
    match jAsU64 p.line_number with
    | none => .error (.invalidParameters "line_number must be a number")
    | some line_number =>
      match jAsStr p.hash with
      | none => .error (.invalidParameters "hash must be a string")
      | some hash =>
        let lines := rustLines content
        let line_idx := line_number - 1
        if lines.length ≤ line_idx then
          .error (.executionFailed (lineNotExistMsg line_number lines.length))
        else
          let target_line := lines.getD line_idx ""
          let current_hash := compute_line_hash target_line
          if current_hash ≠ hash then
            .error (.executionFailed (hashMismatchMsg hash current_hash))
          else
            .ok (joinWithNl (lines.set line_idx new_string))
  else
    match jAsStr p.old_string with
    | none => .error (.invalidParameters
        "old_string is required (or use hashline mode with line_number + hash)")
    | some old_string =>
      let replace_all := (jAsBool p.replace_all).getD false
      if old_string = new_string then
        .error (.invalidParameters oldEqNewMsg)
      else
        let count := countOccurStr content old_string
        if count = 0 then
          .error (.executionFailed notFoundMsg)
        else if 1 < count ∧ replace_all = false then
          .error (.executionFailed (foundTimesMsg count))
        else if replace_all then
          .ok (replaceAllStr content old_string new_string)
        else
          .ok (replaceFirstStr content old_string new_string)

/-- `FileEditTool::execute`. Parameter validation for `path` and
`new_string` happens before the read; `hashline_mode` is presence of both
`line_number` and `hash`; the file is then read, the new content computed
(`editNewContent`), and on success the whole file is written back. The
`count` binding over the written content exists in the source and is unused
there as well. -/
def fileEditExecute (p : EditParams) (file : Option String) : EditOutcome :=
  match jAsStr p.path with
  | none =>
    { result := .error (.invalidParameters "path is required"),
      file := file, wrote := false }
  | some path =>
    match jAsStr p.new_string with
    | none =>
      { result := .error (.invalidParameters "new_string is required"),
        file := file, wrote := false }
    | some new_string =>
      let hashline_mode := p.line_number.isSome && p.hash.isSome
      match file with
      | none =>
        { result := .error (.executionFailed readFailMsg),
          file := none, wrote := false }
      | some content =>
        match editNewContent hashline_mode p new_string content with
        | .error e =>
          { result := .error e, file := some content, wrote := false }
        | .ok new_content =>
          let _count := countOccurStr new_content new_string
          { result := .ok
              { success := true,
                data := [("path", .str path), ("replacements", .num 1),
                         ("mode", .str (modeName hashline_mode)),
                         ("total_lines", .num (rustLines new_content).length)],
                message := editedMsg path (modeName hashline_mode) },
            file := some new_content, wrote := true }

/-! ### Length of the rendered fingerprint -/

theorem strmk_length (l : List Char) : (String.mk l).length = l.length := rfl

theorem toHexAux_length_le :
    ∀ (k fuel n : Nat) (acc : List Char), n < 16 ^ (k + 1) →
      (toHexAux fuel n acc).length ≤ (k + 1) + acc.length := by
  intro k
  induction k with
  | zero =>
    intro fuel n acc hn
    match fuel with
    | 0 => simp [toHexAux]
    | fuel + 1 =>
      rw [toHexAux, if_pos (by simpa using hn)]
      simp only [List.length_cons]
      omega
  | succ k ih =>
    intro fuel n acc hn
    match fuel with
    | 0 => simp only [toHexAux]; omega
    | fuel + 1 =>
      rw [toHexAux]
      by_cases h16 : n < 16
      · rw [if_pos h16]; simp only [List.length_cons]; omega
      · rw [if_neg h16]
        have hdiv : n / 16 < 16 ^ (k + 1) := by
          rw [Nat.div_lt_iff_lt_mul (by norm_num)]
          calc n < 16 ^ (k + 2) := hn
            _ = 16 ^ (k + 1) * 16 := by ring
        have := ih fuel (n / 16) (hexDigit (n % 16) :: acc) hdiv
        simp at this
        omega

theorem toHexAux_length_ge :
    ∀ (fuel n : Nat) (acc : List Char), 1 ≤ fuel →
      acc.length + 1 ≤ (toHexAux fuel n acc).length := by
  intro fuel
  induction fuel with
  | zero => omega
  | succ fuel ih =>
    intro n acc _
    rw [toHexAux]
    by_cases h16 : n < 16
    · rw [if_pos h16]; simp
    · rw [if_neg h16]
      match fuel with
      | 0 => simp [toHexAux]
      | fuel + 1 =>
        have := ih (n / 16) (hexDigit (n % 16) :: acc) (by omega)
        simp at this
        omega

theorem hex02_length (n : Nat) (h : n < 4096) :
    (hex02 n).length = 2 ∨ (hex02 n).length = 3 := by
  have h1 : (toHexDigits n).length ≤ 3 := by
    have := toHexAux_length_le 2 (n + 1) n [] (by norm_num; omega)
    simpa [toHexDigits] using this
  have h2 : 1 ≤ (toHexDigits n).length := by
    have := toHexAux_length_ge (n + 1) n [] (by omega)
    simpa [toHexDigits] using this
  rw [hex02]
  split
  · left; rw [strmk_length]; simp; omega
  · rw [strmk_length]; omega

/-- C1: for every line string `L`, `compute_line_hash L` equals the
lowercase hexadecimal rendering (`hex02`, zero-padded to at least 2 digits)
of the low 12 bits of the 32-bit accumulator obtained from seed 2166136261
by, per byte of `L` in order, multiplying by 16777619 with wraparound
(`% 2^32`) and XOR-ing the byte in; the function is deterministic, and the
rendered token always has 2 or 3 hexadecimal digits. -/
theorem c1_compute_line_hash (L : String) :
    compute_line_hash L =
      hex02 (((strBytes L).foldl
        (fun h b => ((h * 16777619) % 4294967296) ^^^ b) 2166136261) % 4096)
    ∧ compute_line_hash L = compute_line_hash L
    ∧ ((compute_line_hash L).length = 2 ∨ (compute_line_hash L).length = 3) := by
  refine ⟨rfl, rfl, ?_⟩
  exact hex02_length _ (Nat.mod_lt _ (by norm_num))

/-! ### Evaluation lemmas for `fileEditExecute` -/

theorem fileEditExecute_err (p : EditParams) (path ns content : String)
    (e : ToolError)
    (hp : jAsStr p.path = some path)
    (hns : jAsStr p.new_string = some ns)
    (he : editNewContent (p.line_number.isSome && p.hash.isSome) p ns content
        = .error e) :
    fileEditExecute p (some content) = ⟨.error e, some content, false⟩ := by
  simp only [fileEditExecute, hp, hns, he]

theorem fileEditExecute_ok (p : EditParams) (path ns content nc : String)
    (hp : jAsStr p.path = some path)
    (hns : jAsStr p.new_string = some ns)
    (he : editNewContent (p.line_number.isSome && p.hash.isSome) p ns content
        = .ok nc) :
    fileEditExecute p (some content) =
      ⟨.ok { success := true,
             data := [("path", .str path), ("replacements", .num 1),
                      ("mode", .str (modeName (p.line_number.isSome && p.hash.isSome))),
                      ("total_lines", .num (rustLines nc).length)],
             message := editedMsg path (modeName (p.line_number.isSome && p.hash.isSome)) },
        some nc, true⟩ := by
  simp only [fileEditExecute, hp, hns, he]

theorem hashline_false (p : EditParams)
    (hm : p.line_number = none ∨ p.hash = none) :
    (p.line_number.isSome && p.hash.isSome) = false := by
  rcases hm with h | h <;> rw [h] <;> simp

/-- C2: in line mode, when the addressed line exists but the recomputed
fingerprint of its current content differs from the caller-supplied one,
execution fails with `ExecutionFailed` whose message carries both the
expected (caller-supplied) and actual (recomputed) fingerprints, and the
file is unchanged (the write is never reached). -/
theorem c2_line_mode_mismatch (p : EditParams) (path ns h content : String)
    (n : Nat)
    (hp : jAsStr p.path = some path)
    (hns : jAsStr p.new_string = some ns)
    (hln : p.line_number = some (.num n))
    (hh : p.hash = some (.str h))
    (hidx : n - 1 < (rustLines content).length)
    (hmm : compute_line_hash ((rustLines content).getD (n - 1) "") ≠ h) :
    (fileEditExecute p (some content)).result =
      .error (.executionFailed
        (hashMismatchMsg h (compute_line_hash ((rustLines content).getD (n - 1) ""))))
    ∧ (fileEditExecute p (some content)).file = some content
    ∧ (fileEditExecute p (some content)).wrote = false := by
  have hmode : (p.line_number.isSome && p.hash.isSome) = true := by
    rw [hln, hh]; rfl
  have he : editNewContent (p.line_number.isSome && p.hash.isSome) p ns content =
      .error (.executionFailed
        (hashMismatchMsg h (compute_line_hash ((rustLines content).getD (n - 1) "")))) := by
    rw [hmode]
    simp only [editNewContent, hln, hh, jAsU64, jAsStr, if_true]
    rw [if_neg (by omega)]
    rw [if_pos hmm]
  rw [fileEditExecute_err p path ns content _ hp hns he]
  exact ⟨rfl, rfl, rfl⟩

/-- Witness for C2 at a concrete stale fingerprint. -/
theorem c2_witness :
    (fileEditExecute ⟨some (.str "f.txt"), none, some (.str "B"), none,
        some (.num 2), some (.str "zz")⟩ (some "l1\nl2\nl3")).result =
      .error (.executionFailed (hashMismatchMsg "zz"
        (compute_line_hash ((rustLines "l1\nl2\nl3").getD (2 - 1) ""))))
    ∧ (fileEditExecute ⟨some (.str "f.txt"), none, some (.str "B"), none,
        some (.num 2), some (.str "zz")⟩ (some "l1\nl2\nl3")).file =
        some "l1\nl2\nl3"
    ∧ (fileEditExecute ⟨some (.str "f.txt"), none, some (.str "B"), none,
        some (.num 2), some (.str "zz")⟩ (some "l1\nl2\nl3")).wrote = false :=
  c2_line_mode_mismatch _ "f.txt" "B" "zz" "l1\nl2\nl3" 2
    rfl rfl rfl rfl (by decide) (by decide)

/-- C3: in substring mode with `old_string ≠ new_string`, when the file has
zero occurrences of `old_string`, or more than one occurrence with
`replace_all` unset, execution fails with `ExecutionFailed` and the file is
unchanged (the write step is never reached). -/
theorem c3_substring_ambiguous (p : EditParams) (path ns os content : String)
    (hp : jAsStr p.path = some path)
    (hns : jAsStr p.new_string = some ns)
    (hos : jAsStr p.old_string = some os)
    (hm : p.line_number = none ∨ p.hash = none)
    (hne : os ≠ ns)
    (hc : countOccurStr content os = 0 ∨
          (1 < countOccurStr content os ∧ (jAsBool p.replace_all).getD false = false)) :
    (∃ m, (fileEditExecute p (some content)).result = .error (.executionFailed m))
    ∧ (fileEditExecute p (some content)).file = some content
    ∧ (fileEditExecute p (some content)).wrote = false := by
  have hmode := hashline_false p hm
  rcases hc with h0 | ⟨h1, h2⟩
  · have he : editNewContent (p.line_number.isSome && p.hash.isSome) p ns content =
        .error (.executionFailed notFoundMsg) := by
      rw [hmode]
      simp only [editNewContent, hos, Bool.false_eq_true, if_false]
      rw [if_neg hne, if_pos h0]
    rw [fileEditExecute_err p path ns content _ hp hns he]
    exact ⟨⟨_, rfl⟩, rfl, rfl⟩
  · have he : editNewContent (p.line_number.isSome && p.hash.isSome) p ns content =
        .error (.executionFailed (foundTimesMsg (countOccurStr content os))) := by
      rw [hmode]
      simp only [editNewContent, hos, Bool.false_eq_true, if_false]
      rw [if_neg hne, if_neg (by omega), if_pos ⟨h1, h2⟩]
    rw [fileEditExecute_err p path ns content _ hp hns he]
    exact ⟨⟨_, rfl⟩, rfl, rfl⟩

/-- Witness for C3: two occurrences of the target and `replace_all` unset. -/
theorem c3_witness :
    (∃ m, (fileEditExecute ⟨some (.str "f3.txt"), some (.str "ab"),
        some (.str "X"), none, none, none⟩ (some "abab")).result =
      .error (.executionFailed m))
    ∧ (fileEditExecute ⟨some (.str "f3.txt"), some (.str "ab"),
        some (.str "X"), none, none, none⟩ (some "abab")).file = some "abab"
    ∧ (fileEditExecute ⟨some (.str "f3.txt"), some (.str "ab"),
        some (.str "X"), none, none, none⟩ (some "abab")).wrote = false :=
  c3_substring_ambiguous _ "f3.txt" "X" "ab" "abab"
    rfl rfl rfl (Or.inl rfl) (by decide) (Or.inr ⟨by decide, rfl⟩)

/-- Counterexample to C4 as stated: with `old_string = new_string` but an
unreadable target (here: no file at the path), the read at the top of
`execute` fails first, so the result is `ExecutionFailed`, not
`InvalidParameters`. -/
theorem c4_counterexample :
    (fileEditExecute ⟨some (.str "missing.txt"), some (.str "same"),
        some (.str "same"), none, none, none⟩ none).result
      = .error (.executionFailed readFailMsg)
    ∧ ∀ m, (fileEditExecute ⟨some (.str "missing.txt"), some (.str "same"),
        some (.str "same"), none, none, none⟩ none).result
      ≠ .error (.invalidParameters m) := by
  refine ⟨rfl, fun m hcontra => ?_⟩
  simp only [fileEditExecute, jAsStr] at hcontra
  exact absurd (Except.error.inj hcontra) (by intro h; cases h)

/-- C4 amended: with `old_string = new_string` in substring mode, the call
returns `InvalidParameters` whenever the target file can be read, and in
every case (readable or not) no write is performed and the file is
unchanged. -/
theorem c4_amended (p : EditParams) (path s : String)
    (hp : jAsStr p.path = some path)
    (hns : jAsStr p.new_string = some s)
    (hos : jAsStr p.old_string = some s)
    (hm : p.line_number = none ∨ p.hash = none) :
    (∀ content, (fileEditExecute p (some content)).result
        = .error (.invalidParameters oldEqNewMsg))
    ∧ (∀ file, (fileEditExecute p file).file = file
        ∧ (fileEditExecute p file).wrote = false) := by
  have hmode := hashline_false p hm
  have he : ∀ content, editNewContent (p.line_number.isSome && p.hash.isSome) p s content
      = .error (.invalidParameters oldEqNewMsg) := by
    intro content
    rw [hmode]
    simp only [editNewContent, hos, Bool.false_eq_true, if_false]
    simp
  constructor
  · intro content
    rw [fileEditExecute_err p path s content _ hp hns (he content)]
  · intro file
    cases file with
    | none => simp [fileEditExecute, hp, hns]
    | some content =>
      rw [fileEditExecute_err p path s content _ hp hns (he content)]
      exact ⟨rfl, rfl⟩

/-- Witness for the amended C4 at a concrete input. -/
theorem c4_amended_witness :
    (∀ content, (fileEditExecute ⟨some (.str "f4.txt"), some (.str "dup2"),
        some (.str "dup2"), none, none, none⟩ (some content)).result
        = .error (.invalidParameters oldEqNewMsg))
    ∧ (∀ file, (fileEditExecute ⟨some (.str "f4.txt"), some (.str "dup2"),
        some (.str "dup2"), none, none, none⟩ file).file = file
        ∧ (fileEditExecute ⟨some (.str "f4.txt"), some (.str "dup2"),
        some (.str "dup2"), none, none, none⟩ file).wrote = false) :=
  c4_amended _ "f4.txt" "dup2" rfl rfl rfl (Or.inl rfl)

/-- Counterexample to C5 as stated: the identical argument bundle (substring
mode, `old_string = new_string`) yields `InvalidParameters` when the target
file is readable but the read-failure `ExecutionFailed` when it is not, so
the read of the target is performed, and consulted, before the
`InvalidParameters` error is returned. -/
theorem c5_counterexample :
    (fileEditExecute ⟨some (.str "c5.txt"), some (.str "dup"),
        some (.str "dup"), none, none, none⟩ (some "hello")).result
      = .error (.invalidParameters oldEqNewMsg)
    ∧ (fileEditExecute ⟨some (.str "c5.txt"), some (.str "dup"),
        some (.str "dup"), none, none, none⟩ none).result
      = .error (.executionFailed readFailMsg) :=
  ⟨rfl, rfl⟩

/-- C6: in line mode (1-based `line_number`), a line number exceeding the
line count fails with `ExecutionFailed` and leaves the file unchanged;
otherwise, on fingerprint match, the content written back is the file's
lines (endings normalized away) with the addressed line replaced by the
caller's replacement text, rejoined with newlines as whole-file content. -/
theorem c6_line_mode (p : EditParams) (path ns h content : String) (n : Nat)
    (hp : jAsStr p.path = some path)
    (hns : jAsStr p.new_string = some ns)
    (hln : p.line_number = some (.num n))
    (hh : p.hash = some (.str h))
    (hn1 : 1 ≤ n) :
    ((rustLines content).length < n →
        (fileEditExecute p (some content)).result =
          .error (.executionFailed (lineNotExistMsg n (rustLines content).length))
        ∧ (fileEditExecute p (some content)).file = some content
        ∧ (fileEditExecute p (some content)).wrote = false)
    ∧ (n - 1 < (rustLines content).length →
       compute_line_hash ((rustLines content).getD (n - 1) "") = h →
        (∃ r, (fileEditExecute p (some content)).result = .ok r)
        ∧ (fileEditExecute p (some content)).file =
            some (joinWithNl ((rustLines content).set (n - 1) ns))
        ∧ (fileEditExecute p (some content)).wrote = true) := by
  have hmode : (p.line_number.isSome && p.hash.isSome) = true := by
    rw [hln, hh]; rfl
  constructor
  · intro hbig
    have he : editNewContent (p.line_number.isSome && p.hash.isSome) p ns content =
        .error (.executionFailed (lineNotExistMsg n (rustLines content).length)) := by
      rw [hmode]
      simp only [editNewContent, hln, hh, jAsU64, jAsStr, if_true]
      rw [if_pos (by omega)]
    rw [fileEditExecute_err p path ns content _ hp hns he]
    exact ⟨rfl, rfl, rfl⟩
  · intro hidx hhash
    have he : editNewContent (p.line_number.isSome && p.hash.isSome) p ns content =
        .ok (joinWithNl ((rustLines content).set (n - 1) ns)) := by
      rw [hmode]
      simp only [editNewContent, hln, hh, jAsU64, jAsStr, if_true]
      rw [if_neg (by omega), if_neg (not_not_intro hhash)]
    rw [fileEditExecute_ok p path ns content _ hp hns he]
    exact ⟨⟨_, rfl⟩, rfl, rfl⟩

def c6WitnessParamsA : EditParams :=
  ⟨some (.str "f6.txt"), none, some (.str "NEW"), none,
   some (.num 7), some (.str "aa")⟩

def c6WitnessParamsB : EditParams :=
  ⟨some (.str "f6b.txt"), none, some (.str "NEW"), none,
   some (.num 2),
   some (.str (compute_line_hash ((rustLines "a\nb\r").getD (2 - 1) "")))⟩

/-- Witness for C6 at two inputs: line 7 of a two-line file does not exist
(the file is left untouched), and editing line 2 of `"a\nb\r"` — whose
second line is `"b\r"`, carriage return included — with that line's
fingerprint succeeds and writes the rejoined lines with the replacement. -/
theorem c6_witness :
    (((rustLines "x\ny").length < 7 →
        (fileEditExecute c6WitnessParamsA (some "x\ny")).result =
          .error (.executionFailed (lineNotExistMsg 7 (rustLines "x\ny").length))
        ∧ (fileEditExecute c6WitnessParamsA (some "x\ny")).file = some "x\ny"
        ∧ (fileEditExecute c6WitnessParamsA (some "x\ny")).wrote = false)
    ∧ (7 - 1 < (rustLines "x\ny").length →
       compute_line_hash ((rustLines "x\ny").getD (7 - 1) "") = "aa" →
        (∃ r, (fileEditExecute c6WitnessParamsA (some "x\ny")).result = .ok r)
        ∧ (fileEditExecute c6WitnessParamsA (some "x\ny")).file =
            some (joinWithNl ((rustLines "x\ny").set (7 - 1) "NEW"))
        ∧ (fileEditExecute c6WitnessParamsA (some "x\ny")).wrote = true))
    ∧ (((rustLines "a\nb\r").length < 2 →
        (fileEditExecute c6WitnessParamsB (some "a\nb\r")).result =
          .error (.executionFailed
            (lineNotExistMsg 2 (rustLines "a\nb\r").length))
        ∧ (fileEditExecute c6WitnessParamsB (some "a\nb\r")).file =
            some "a\nb\r"
        ∧ (fileEditExecute c6WitnessParamsB (some "a\nb\r")).wrote = false)
    ∧ (2 - 1 < (rustLines "a\nb\r").length →
       compute_line_hash ((rustLines "a\nb\r").getD (2 - 1) "") =
         compute_line_hash ((rustLines "a\nb\r").getD (2 - 1) "") →
        (∃ r, (fileEditExecute c6WitnessParamsB (some "a\nb\r")).result = .ok r)
        ∧ (fileEditExecute c6WitnessParamsB (some "a\nb\r")).file =
            some (joinWithNl ((rustLines "a\nb\r").set (2 - 1) "NEW"))
        ∧ (fileEditExecute c6WitnessParamsB (some "a\nb\r")).wrote = true)) :=
  ⟨c6_line_mode c6WitnessParamsA "f6.txt" "NEW" "aa" "x\ny" 7
     rfl rfl rfl rfl (by decide),
   c6_line_mode c6WitnessParamsB "f6b.txt" "NEW"
     (compute_line_hash ((rustLines "a\nb\r").getD (2 - 1) "")) "a\nb\r" 2
     rfl rfl rfl rfl (by decide)⟩

/-- C9: because the 1-based line number is decremented with saturating
subtraction, `line_number = 0` addresses the same line as `line_number = 1`:
on a non-empty file, a `line_number = 0` edit whose fingerprint matches the
first line is not rejected, and the first line is replaced. -/
theorem c9_line_zero (p : EditParams) (path ns content : String)
    (hp : jAsStr p.path = some path)
    (hns : jAsStr p.new_string = some ns)
    (hln : p.line_number = some (.num 0))
    (hh : p.hash = some (.str (compute_line_hash ((rustLines content).getD 0 ""))))
    (hne : rustLines content ≠ []) :
    (∃ r, (fileEditExecute p (some content)).result = .ok r)
    ∧ (fileEditExecute p (some content)).file =
        some (joinWithNl ((rustLines content).set 0 ns))
    ∧ (fileEditExecute p (some content)).wrote = true
    ∧ fileEditExecute { p with line_number := some (.num 1) } (some content)
        = fileEditExecute p (some content) := by
  have hpos : 0 < (rustLines content).length := List.length_pos.mpr hne
  have hmode : (p.line_number.isSome && p.hash.isSome) = true := by
    rw [hln, hh]; rfl
  have he0 : editNewContent (p.line_number.isSome && p.hash.isSome) p ns content =
      .ok (joinWithNl ((rustLines content).set 0 ns)) := by
    rw [hmode]
    simp only [editNewContent, hln, hh, jAsU64, jAsStr, if_true, Nat.zero_sub]
    rw [if_neg (by omega), if_neg (not_not_intro rfl)]
  have hmode1 : (({ p with line_number := some (.num 1) } : EditParams).line_number.isSome
      && ({ p with line_number := some (.num 1) } : EditParams).hash.isSome) = true := by
    simp [hh]
  have he1 : editNewContent
      (({ p with line_number := some (.num 1) } : EditParams).line_number.isSome
        && ({ p with line_number := some (.num 1) } : EditParams).hash.isSome)
      { p with line_number := some (.num 1) } ns content =
      .ok (joinWithNl ((rustLines content).set 0 ns)) := by
    rw [hmode1]
    simp only [editNewContent, hh, jAsU64, jAsStr, if_true]
    rw [if_neg (by omega), if_neg (not_not_intro rfl)]
  rw [fileEditExecute_ok p path ns content _ hp hns he0,
      fileEditExecute_ok { p with line_number := some (.num 1) } path ns content _
        hp hns he1]
  refine ⟨⟨_, rfl⟩, rfl, rfl, ?_⟩
  have hhs : p.hash.isSome = true := by rw [hh]; rfl
  have hls : p.line_number.isSome = true := by rw [hln]; rfl
  simp [hmode, hmode1, hhs, hls]

/-- Witness for C9: `line_number = 0` on a two-line file with the first
line's fingerprint replaces the first line. -/
theorem c9_witness :
    (∃ r, (fileEditExecute ⟨some (.str "f9.txt"), none, some (.str "Z"), none,
        some (.num 0),
        some (.str (compute_line_hash ((rustLines "first\nsecond").getD 0 "")))⟩
        (some "first\nsecond")).result = .ok r)
    ∧ (fileEditExecute ⟨some (.str "f9.txt"), none, some (.str "Z"), none,
        some (.num 0),
        some (.str (compute_line_hash ((rustLines "first\nsecond").getD 0 "")))⟩
        (some "first\nsecond")).file =
        some (joinWithNl ((rustLines "first\nsecond").set 0 "Z"))
    ∧ (fileEditExecute ⟨some (.str "f9.txt"), none, some (.str "Z"), none,
        some (.num 0),
        some (.str (compute_line_hash ((rustLines "first\nsecond").getD 0 "")))⟩
        (some "first\nsecond")).wrote = true
    ∧ fileEditExecute { (⟨some (.str "f9.txt"), none, some (.str "Z"), none,
        some (.num 0),
        some (.str (compute_line_hash ((rustLines "first\nsecond").getD 0 "")))⟩ : EditParams)
        with line_number := some (.num 1) } (some "first\nsecond")
        = fileEditExecute ⟨some (.str "f9.txt"), none, some (.str "Z"), none,
        some (.num 0),
        some (.str (compute_line_hash ((rustLines "first\nsecond").getD 0 "")))⟩
        (some "first\nsecond") :=
  c9_line_zero _ "f9.txt" "Z" "first\nsecond" rfl rfl rfl rfl (by decide)

/-- C10: every successful `file_edit` reports `"replacements": 1` in the
result data and a message announcing exactly one replacement
(`editedMsg` interpolates the literal text `(1 remplacement, ...)`), even
when `replace_all` actually substituted several occurrences. -/
theorem c10_replacements_always_one (p : EditParams) (file : Option String)
    (r : ToolResult)
    (h : (fileEditExecute p file).result = .ok r) :
    lookupData "replacements" r.data = some (.num 1)
    ∧ ∃ path mode, r.message = editedMsg path mode := by
  unfold fileEditExecute at h
  split at h
  · simp at h
  · split at h
    · simp at h
    · split at h
      · simp at h
      · dsimp only at h
        split at h
        · simp at h
        · simp only [Except.ok.injEq] at h
          subst h
          refine ⟨?_, _, _, rfl⟩
          rw [lookupData, if_neg (by decide), lookupData, if_pos rfl]

def c10WitnessParams : EditParams :=
  ⟨some (.str "f10.txt"), some (.str "a"), some (.str "b"),
   some (.bool true), none, none⟩

def c10WitnessResult : ToolResult :=
  { success := true,
    data := [("path", .str "f10.txt"), ("replacements", .num 1),
             ("mode", .str "str_replace"), ("total_lines", .num 1)],
    message := editedMsg "f10.txt" "str_replace" }

/-- Witness for C10: `replace_all = true` on `"aa"` replaces two
occurrences, yet the reported data says `"replacements": 1`. -/
theorem c10_witness :
    lookupData "replacements" c10WitnessResult.data = some (.num 1)
    ∧ ∃ path mode, c10WitnessResult.message = editedMsg path mode :=
  c10_replacements_always_one c10WitnessParams (some "aa") c10WitnessResult rfl

/-! ### Path extension (Rust `Path::extension`) -/

/-- Final path component (model: split on the path separator). -/
def lastComponent (p : String) : String :=
  String.mk (((splitCh '/' p.data).getLast?).getD [])

/-- Rust `Path::extension` on a file name: the part after the last dot,
none when there is no dot or when the only dot is the leading one of a
hidden file. -/
def fileExtension (name : String) : Option String :=
  match splitCh '.' name.data with
  | [] => none
  | [_] => none
  | first :: rest =>
    if first = [] ∧ rest.length = 1 then none
    else some (String.mk (((first :: rest).getLast?).getD []))

def pathExtension (p : String) : Option String :=
  fileExtension (lastComponent p)

/-! ### FileCreateTool and FileInfoTool

Both are modelled on the single target path: the state is the content
stored there (`none` when no readable file exists). Parent-directory
creation has no observable effect in this single-path model, and the
metadata fields the claims never mention (readonly flag, timestamps) are
abstracted to fixed values; `metadata.len()` is the byte length of the
stored content, which is what the write of the create tool produces. -/

structure CreateParams where
  path : Option JsonValue
  content : Option JsonValue
  overwrite : Option JsonValue

structure CreateOutcome where
  result : Except ToolError ToolResult
  file : Option String
  wrote : Bool

def createExistsMsg (path : String) : String :=
  "Le fichier \x27" ++ path ++
    "\x27 existe déjà. Utilisez overwrite=true pour écraser, ou file_edit pour modifier."

def createdMsg (path : String) (lines bytes : Nat) : String :=
  "Fichier créé: " ++ path ++ " (" ++ toString lines ++ " lignes, " ++
    toString bytes ++ " octets)"

/-- `FileCreateTool::execute`. -/
def fileCreateExecute (p : CreateParams) (file : Option String) : CreateOutcome :=
  match jAsStr p.path with
  | none => ⟨.error (.invalidParameters "path is required"), file, false⟩
  | some path =>
    match jAsStr p.content with
    | none => ⟨.error (.invalidParameters "content is required"), file, false⟩
    | some content =>
      let overwrite := (jAsBool p.overwrite).getD false
      if file.isSome && !overwrite then
        ⟨.error (.executionFailed (createExistsMsg path)), file, false⟩
      else
        let lines := (rustLines content).length
        let bytes := strByteLen content
        ⟨.ok { success := true,
               data := [("path", .str path), ("bytes", .num bytes),
                        ("lines", .num lines), ("created", .bool true)],
               message := createdMsg path lines bytes },
         some content, true⟩

structure InfoParams where
  path : Option JsonValue

def metadataFailMsg : String :=
  "Impossible de lire les métadonnées: <erreur E/S>"

/-- `format_size` from filesystem.rs; the fractional KB/MB/GB renderings
use `f64` formatting in the source and are abstracted to placeholders here
(no claim depends on them), the exact `B` branch is kept. -/
def format_size (bytes : Nat) : String :=
  if 1073741824 ≤ bytes then "<GB>"
  else if 1048576 ≤ bytes then "<MB>"
  else if 1024 ≤ bytes then "<KB>"
  else toString bytes ++ " B"

def infoLineCountJson : Option Nat → JsonValue
  | some c => .num c
  | none => .null

def infoMsg (path : String) (size : Nat) (lc : Option Nat) : String :=
  path ++ ": file (" ++ format_size size ++ ", lecture/écriture" ++
    (match lc with
     | some c => ", " ++ toString c ++ " lignes"
     | none => "") ++ ")"

/-- `FileInfoTool::execute`, modelled for regular-file targets (the claims
only inspect files): metadata succeeds exactly when a file is stored at the
path; the line count is computed only when the byte size is below the fixed
10 MB ceiling (`size < 10_000_000`), otherwise `line_count` is null. -/
def fileInfoExecute (p : InfoParams) (file : Option String) :
    Except ToolError ToolResult :=
  match jAsStr p.path with
  | none => .error (.invalidParameters "path is required")
  | some path =>
    match file with
    | none => .error (.executionFailed metadataFailMsg)
    | some c =>
      let size := strByteLen c
      let line_count := if size < 10000000 then some (rustLines c).length else none
      .ok { success := true,
            data := [("path", .str path), ("type", .str "file"),
                     ("size", .num size),
                     ("size_human", .str (format_size size)),
                     ("readonly", .bool false),
                     ("extension", .str ((pathExtension path).getD "")),
                     ("modified_timestamp", .null),
                     ("created_timestamp", .null),
                     ("line_count", infoLineCountJson line_count)],
            message := infoMsg path size line_count }

theorem strBytes_mk_replicate (n : Nat) :
    strBytes (String.mk (List.replicate n 'a')) = List.replicate n 97 := by
  induction n with
  | zero => rfl
  | succ n ih =>
    rw [List.replicate_succ]
    show charUtf8 'a' ++ strBytes (String.mk (List.replicate n 'a')) = _
    rw [ih, List.replicate_succ]
    rfl

theorem strByteLen_replicate (n : Nat) :
    strByteLen (String.mk (List.replicate n 'a')) = n := by
  rw [strByteLen, strBytes_mk_replicate, List.length_replicate]

/-- Counterexample to C8 as stated: for a 10,000,000-byte content the
creation succeeds, but `file_info` reports `line_count` as null (the
`size < 10_000_000` ceiling fails), not the number of newline-delimited
segments. -/
theorem c8_counterexample :
    (fileCreateExecute ⟨some (.str "big.txt"),
        some (.str (String.mk (List.replicate 10000000 'a'))), none⟩ none).file
      = some (String.mk (List.replicate 10000000 'a'))
    ∧ (∃ r, (fileCreateExecute ⟨some (.str "big.txt"),
        some (.str (String.mk (List.replicate 10000000 'a'))), none⟩ none).result
        = .ok r)
    ∧ ∃ r, fileInfoExecute ⟨some (.str "big.txt")⟩
        (some (String.mk (List.replicate 10000000 'a'))) = .ok r
        ∧ lookupData "line_count" r.data = some .null := by
  have hsize : strByteLen (String.mk (List.replicate 10000000 'a')) = 10000000 :=
    strByteLen_replicate 10000000
  refine ⟨rfl, ⟨_, rfl⟩, _, rfl, ?_⟩
  dsimp only
  rw [hsize]
  norm_num
  simp [lookupData, infoLineCountJson]

/-- C8 amended: creating a file with content `C` at an empty path succeeds,
and inspecting it always reports byte size equal to the byte length of `C`;
the reported line count equals the number of newline-delimited segments of
`C` whenever the byte length is below the 10 MB ceiling, and for contents
at or above the ceiling no line count is reported (the field is null). -/
theorem c8_roundtrip (path C : String) :
    (∃ r, (fileCreateExecute ⟨some (.str path), some (.str C), none⟩ none).result
        = .ok r)
    ∧ (fileCreateExecute ⟨some (.str path), some (.str C), none⟩ none).file = some C
    ∧ ∀ r, fileInfoExecute ⟨some (.str path)⟩
        ((fileCreateExecute ⟨some (.str path), some (.str C), none⟩ none).file)
        = .ok r →
        lookupData "size" r.data = some (.num (strByteLen C))
        ∧ (strByteLen C < 10000000 →
            lookupData "line_count" r.data = some (.num (rustLines C).length))
        ∧ (10000000 ≤ strByteLen C →
            lookupData "line_count" r.data = some JsonValue.null) := by
  refine ⟨⟨_, rfl⟩, rfl, ?_⟩
  intro r hr
  have hr' : fileInfoExecute ⟨some (.str path)⟩ (some C) = .ok r := hr
  simp only [fileInfoExecute, jAsStr] at hr'
  simp only [Except.ok.injEq] at hr'
  subst hr'
  refine ⟨?_, ?_, ?_⟩
  · simp [lookupData]
  · intro hlt
    rw [if_pos hlt]
    simp [lookupData, infoLineCountJson]
  · intro hge
    rw [if_neg (by omega : ¬ strByteLen C < 10000000)]
    simp [lookupData, infoLineCountJson]

/-- Witness for the amended C8 at a small concrete content. -/
theorem c8_roundtrip_witness :
    (∃ r, (fileCreateExecute ⟨some (.str "w8.txt"), some (.str "a\nb"), none⟩
        none).result = .ok r)
    ∧ (fileCreateExecute ⟨some (.str "w8.txt"), some (.str "a\nb"), none⟩
        none).file = some "a\nb"
    ∧ ∀ r, fileInfoExecute ⟨some (.str "w8.txt")⟩
        ((fileCreateExecute ⟨some (.str "w8.txt"), some (.str "a\nb"), none⟩
          none).file) = .ok r →
        lookupData "size" r.data = some (.num (strByteLen "a\nb"))
        ∧ (strByteLen "a\nb" < 10000000 →
            lookupData "line_count" r.data =
              some (.num (rustLines "a\nb").length))
        ∧ (10000000 ≤ strByteLen "a\nb" →
            lookupData "line_count" r.data = some JsonValue.null) :=
  c8_roundtrip "w8.txt" "a\nb"

/-! ### FileSearchContentTool

The directory tree visited by `search_content_recursive` is modelled as a
mutual inductive (entries keep the enumeration order of `read_dir` and
carry their file names). `FsTree.file none` is a file whose
`read_to_string` fails (binary); `.other` is a path that is neither a file
nor a directory. Paths are joined with a single `/`. -/

/-- Directory entries as visited by `search_content_recursive`, in the
enumeration order of `read_dir`, encoded in first-child/next-sibling form
(each constructor carries the entry name, the entry's own data, and the
remaining siblings) so that every recursion below is plainly structural:
a `fileE` with `none` content is a file whose `read_to_string` fails
(binary); `otherE` is an entry that is neither a file nor a directory. -/
inductive FsEntries where
  | nil : FsEntries
  | fileE (name : String) (content : Option String) (rest : FsEntries) : FsEntries
  | dirE (name : String) (children : FsEntries) (rest : FsEntries) : FsEntries
  | otherE (name : String) (rest : FsEntries) : FsEntries

/-- The filesystem node at the root path handed to the walk. -/
inductive FsTree where
  | file : Option String → FsTree
  | dir : FsEntries → FsTree
  | other : FsTree

/-- One search hit: file path, 1-based line number, trimmed line. -/
structure SearchMatch where
  file : String
  line_number : Nat
  content : String

/-- Rust `name.starts_with('.')`. -/
def startsWithDot (name : String) : Bool :=
  match name.data with
  | [] => false
  | c :: _ => c = '.'

/-- The fixed prune list of the directory walk. -/
def prunedName (name : String) : Bool :=
  startsWithDot name || name == "node_modules" || name == "target" ||
    name == "__pycache__" || name == ".git"

def childPath (p name : String) : String :=
  p ++ "/" ++ name

/-- The per-line match test of the walk (the query is already lowercased by
the caller when the search is case-insensitive). -/
def lineMatchesQ (line query : String) (case_sensitive : Bool) : Bool :=
  if case_sensitive then containsStr line query
  else containsStr (lowerStr line) query

/-- The extension filter: skip the file when a pattern is set and the
path's extension (empty string when absent) differs from it. -/
def extSkip (file_pattern : Option String) (path : String) : Bool :=
  match file_pattern with
  | none => false
  | some pattern => ((pathExtension path).getD "") != pattern

/-- The per-file line loop of `search_content_recursive`: scan the
enumerated lines in order, stopping before each line once the accumulated
match count reaches the cap. -/
def scanLines (path query : String) (case_sensitive : Bool) (max_results : Nat) :
    List (Nat × String) → List SearchMatch → List SearchMatch
  | [], results => results
  | (i, line) :: rest, results =>
    if max_results ≤ results.length then results
    else if lineMatchesQ line query case_sensitive then
      scanLines path query case_sensitive max_results rest
        (results ++ [⟨path, i + 1, strTrim line⟩])
    else scanLines path query case_sensitive max_results rest results

/-- The file branch of `search_content_recursive` (the source's recursive
call on a file entry): cap check at function entry, extension filter, read
(skipping unreadable files), line scan. -/
def searchFileNode (path : String) (content : Option String) (query : String)
    (case_sensitive : Bool) (file_pattern : Option String)
    (results : List SearchMatch) (max_results : Nat) : List SearchMatch :=
  if max_results ≤ results.length then results
  else if extSkip file_pattern path then results
  else
    match content with
    | none => results
    | some c =>
      scanLines path query case_sensitive max_results (rustLines c).enum results

/-- The `while let` loop of `search_content_recursive` over one directory's
entries: check the cap before each entry, skip pruned names without
descending, and otherwise perform the source's recursive call on the entry,
inlined per entry kind (file branch, directory branch — whose body is this
very loop on the child's entries — or nothing for other node kinds). -/
def searchEntriesRec (query : String) (case_sensitive : Bool)
    (file_pattern : Option String) (max_results : Nat) :
    String → FsEntries → List SearchMatch → List SearchMatch
  | _, .nil, results => results
  | path, .fileE name content rest, results =>
    if max_results ≤ results.length then results
    else if prunedName name then
      searchEntriesRec query case_sensitive file_pattern max_results path rest
        results
    else
      searchEntriesRec query case_sensitive file_pattern max_results path rest
        (searchFileNode (childPath path name) content query case_sensitive
          file_pattern results max_results)
  | path, .dirE name children rest, results =>
    if max_results ≤ results.length then results
    else if prunedName name then
      searchEntriesRec query case_sensitive file_pattern max_results path rest
        results
    else
      searchEntriesRec query case_sensitive file_pattern max_results path rest
        (searchEntriesRec query case_sensitive file_pattern max_results
          (childPath path name) children results)
  | path, .otherE name rest, results =>
    if max_results ≤ results.length then results
    else if prunedName name then
      searchEntriesRec query case_sensitive file_pattern max_results path rest
        results
    else
      searchEntriesRec query case_sensitive file_pattern max_results path rest
        results

/-- `search_content_recursive` from filesystem.rs, on the root node: return
immediately once the cap is reached; on a file, apply the extension filter
and scan its lines; on a directory, walk its entries; otherwise do
nothing. -/
def search_content_recursive (path : String) (t : FsTree) (query : String)
    (case_sensitive : Bool) (file_pattern : Option String)
    (results : List SearchMatch) (max_results : Nat) : List SearchMatch :=
  if max_results ≤ results.length then results
  else
    match t with
    | .file content =>
      if extSkip file_pattern path then results
      else
        match content with
        | none => results
        | some c =>
          scanLines path query case_sensitive max_results (rustLines c).enum
            results
    | .dir entries =>
      searchEntriesRec query case_sensitive file_pattern max_results path
        entries results
    | .other => results

/-- Uncapped reference: all matching lines of one file, in line order. -/
def fileLineMatches (path query : String) (case_sensitive : Bool) :
    List (Nat × String) → List SearchMatch
  | [] => []
  | (i, line) :: rest =>
    if lineMatchesQ line query case_sensitive then
      ⟨path, i + 1, strTrim line⟩ :: fileLineMatches path query case_sensitive rest
    else fileLineMatches path query case_sensitive rest

/-- Uncapped reference: all matches of one file entry. -/
def fileAllMatches (path : String) (content : Option String) (query : String)
    (case_sensitive : Bool) (file_pattern : Option String) : List SearchMatch :=
  if extSkip file_pattern path then []
  else
    match content with
    | none => []
    | some c => fileLineMatches path query case_sensitive (rustLines c).enum

/-- Uncapped reference walk over directory entries: every match the engine
would record if no cap existed, in traversal order, with the same pruning
and filtering. -/
def searchAllEntries (query : String) (case_sensitive : Bool)
    (file_pattern : Option String) : String → FsEntries → List SearchMatch
  | _, .nil => []
  | path, .fileE name content rest =>
    if prunedName name then
      searchAllEntries query case_sensitive file_pattern path rest
    else
      fileAllMatches (childPath path name) content query case_sensitive
          file_pattern ++
        searchAllEntries query case_sensitive file_pattern path rest
  | path, .dirE name children rest =>
    if prunedName name then
      searchAllEntries query case_sensitive file_pattern path rest
    else
      searchAllEntries query case_sensitive file_pattern (childPath path name)
          children ++
        searchAllEntries query case_sensitive file_pattern path rest
  | path, .otherE _ rest =>
    searchAllEntries query case_sensitive file_pattern path rest

/-- All matches of the searched tree, in traversal order. -/
def searchAll (path : String) (t : FsTree) (query : String)
    (case_sensitive : Bool) (file_pattern : Option String) : List SearchMatch :=
  match t with
  | .file content => fileAllMatches path content query case_sensitive file_pattern
  | .dir entries => searchAllEntries query case_sensitive file_pattern path entries
  | .other => []


/-! ### The capped walk returns a prefix of the uncapped walk -/

theorem scanLines_eq (path query : String) (cs : Bool) (max_results : Nat) :
    ∀ (l : List (Nat × String)) (results : List SearchMatch),
      scanLines path query cs max_results l results =
        results ++ (fileLineMatches path query cs l).take
          (max_results - results.length) := by
  intro l
  induction l with
  | nil => intro results; simp [scanLines, fileLineMatches]
  | cons hd rest ih =>
    intro results
    obtain ⟨i, line⟩ := hd
    rw [scanLines, fileLineMatches]
    by_cases hcap : max_results ≤ results.length
    · rw [if_pos hcap]
      have h0 : max_results - results.length = 0 := by omega
      rw [h0]
      simp
    · rw [if_neg hcap]
      by_cases hm : lineMatchesQ line query cs = true
      · rw [if_pos hm, if_pos hm, ih]
        have hstep : max_results - results.length =
            (max_results - (results.length + 1)) + 1 := by omega
        rw [hstep, List.take_succ_cons, List.length_append]
        simp
      · rw [if_neg hm, if_neg hm, ih]

theorem searchFileNode_eq (path : String) (content : Option String)
    (query : String) (cs : Bool) (fp : Option String)
    (results : List SearchMatch) (max_results : Nat) :
    searchFileNode path content query cs fp results max_results =
      results ++ (fileAllMatches path content query cs fp).take
        (max_results - results.length) := by
  simp only [searchFileNode, fileAllMatches]
  by_cases hcap : max_results ≤ results.length
  · rw [if_pos hcap]
    have h0 : max_results - results.length = 0 := by omega
    rw [h0]
    simp
  · rw [if_neg hcap]
    by_cases hskip : extSkip fp path = true
    · rw [if_pos hskip, if_pos hskip]
      simp
    · rw [if_neg hskip, if_neg hskip]
      cases content with
      | none => simp
      | some c => exact scanLines_eq path query cs max_results _ results

/-- Splitting a capped traversal into two stages equals taking from the
concatenated uncapped stages. -/
theorem take_chunk_append (A B results : List SearchMatch) (m : Nat) :
    (results ++ A.take (m - results.length)) ++
      B.take (m - (results ++ A.take (m - results.length)).length) =
    results ++ (A ++ B).take (m - results.length) := by
  rw [List.take_append_eq_append_take, List.length_append, List.length_take]
  have hidx : m - (results.length + min (m - results.length) A.length) =
      m - results.length - A.length := by omega
  rw [hidx, List.append_assoc]

theorem searchEntriesRec_eq (query : String) (cs : Bool) (fp : Option String)
    (max_results : Nat) :
    ∀ (es : FsEntries) (path : String) (results : List SearchMatch),
      searchEntriesRec query cs fp max_results path es results =
        results ++ (searchAllEntries query cs fp path es).take
          (max_results - results.length) := by
  intro es
  induction es with
  | nil => intro path results; simp [searchEntriesRec, searchAllEntries]
  | fileE name content rest ih =>
    intro path results
    rw [searchEntriesRec, searchAllEntries]
    by_cases hcap : max_results ≤ results.length
    · rw [if_pos hcap]
      have h0 : max_results - results.length = 0 := by omega
      rw [h0]
      simp
    · rw [if_neg hcap]
      by_cases hprune : prunedName name = true
      · rw [if_pos hprune, if_pos hprune, ih]
      · rw [if_neg hprune, if_neg hprune, ih, searchFileNode_eq,
          take_chunk_append]
  | dirE name children rest ihc ih =>
    intro path results
    rw [searchEntriesRec, searchAllEntries]
    by_cases hcap : max_results ≤ results.length
    · rw [if_pos hcap]
      have h0 : max_results - results.length = 0 := by omega
      rw [h0]
      simp
    · rw [if_neg hcap]
      by_cases hprune : prunedName name = true
      · rw [if_pos hprune, if_pos hprune, ih]
      · rw [if_neg hprune, if_neg hprune, ih, ihc, take_chunk_append]
  | otherE name rest ih =>
    intro path results
    rw [searchEntriesRec, searchAllEntries]
    by_cases hcap : max_results ≤ results.length
    · rw [if_pos hcap]
      have h0 : max_results - results.length = 0 := by omega
      rw [h0]
      simp
    · rw [if_neg hcap]
      by_cases hprune : prunedName name = true
      · rw [if_pos hprune, ih]
      · rw [if_neg hprune, ih]

theorem search_content_recursive_eq (path : String) (t : FsTree)
    (query : String) (cs : Bool) (fp : Option String)
    (results : List SearchMatch) (max_results : Nat) :
    search_content_recursive path t query cs fp results max_results =
      results ++ (searchAll path t query cs fp).take
        (max_results - results.length) := by
  cases t with
  | file content =>
    have hbody : search_content_recursive path (.file content) query cs fp
        results max_results =
        searchFileNode path content query cs fp results max_results := by
      simp only [search_content_recursive, searchFileNode]
    rw [hbody, searchFileNode_eq]
    rfl
  | dir entries =>
    rw [search_content_recursive, searchAll]
    by_cases hcap : max_results ≤ results.length
    · rw [if_pos hcap]
      have h0 : max_results - results.length = 0 := by omega
      rw [h0]
      simp
    · rw [if_neg hcap]
      exact searchEntriesRec_eq query cs fp max_results entries path results
  | other =>
    rw [search_content_recursive, searchAll]
    by_cases hcap : max_results ≤ results.length
    · rw [if_pos hcap]; simp
    · rw [if_neg hcap]; simp

/-- The number of matches a capped search returns from an empty accumulator
is exactly the cap capped against the total number of matches. -/
theorem search_content_recursive_length (path : String) (t : FsTree)
    (query : String) (cs : Bool) (fp : Option String) (max_results : Nat) :
    (search_content_recursive path t query cs fp [] max_results).length =
      min max_results (searchAll path t query cs fp).length := by
  rw [search_content_recursive_eq]
  simp [List.length_take]

/-! ### FileSearchContentTool::execute -/

structure SearchParams where
  query : Option JsonValue
  path : Option JsonValue
  file_pattern : Option JsonValue
  case_sensitive : Option JsonValue
  max_results : Option JsonValue

def matchJson (m : SearchMatch) : JsonValue :=
  .obj [("file", .str m.file), ("line_number", .num m.line_number),
        ("content", .str m.content)]

def searchMsg (total : Nat) (query : String) : String :=
  toString total ++ " résultat(s) pour \"" ++ query ++ "\""

/-- The results list `execute` computes for a given query: root path
defaulting to `"."`, case-insensitive by default (the query is lowercased
then), extension filter, and a maximum-results cap defaulting to 30 when
the parameter is absent or not an unsigned integer. -/
def searchResultsOf (p : SearchParams) (root : FsTree) (query : String) :
    List SearchMatch :=
  search_content_recursive ((jAsStr p.path).getD ".") root
    (if (jAsBool p.case_sensitive).getD false then query else lowerStr query)
    ((jAsBool p.case_sensitive).getD false) (jAsStr p.file_pattern) []
    ((jAsU64 p.max_results).getD 30)

/-- The uncapped match list for the same invocation. -/
def searchAllOf (p : SearchParams) (root : FsTree) (query : String) :
    List SearchMatch :=
  searchAll ((jAsStr p.path).getD ".") root
    (if (jAsBool p.case_sensitive).getD false then query else lowerStr query)
    ((jAsBool p.case_sensitive).getD false) (jAsStr p.file_pattern)

/-- `FileSearchContentTool::execute`: validate `query`, read the remaining
parameters with their defaults, run the recursive search from the root node
and wrap the matches. -/
def fileSearchExecute (p : SearchParams) (root : FsTree) :
    Except ToolError ToolResult :=
  match jAsStr p.query with
  | none => .error (.invalidParameters "query is required")
  | some query =>
    let results := searchResultsOf p root query
    .ok { success := true,
          data := [("matches", .arr (results.map matchJson)),
                   ("total", .num results.length),
                   ("query", .str query)],
          message := searchMsg results.length query }

/-- C7: for every search invocation, the number of returned matches never
exceeds the cap (default 30 when the parameter is absent), and when the
searched tree contains more matching lines than the cap the returned count
equals exactly the cap. The cooperative cap check before each unit of work
is embedded in `searchEntriesRec` and `scanLines`, whose results
`search_content_recursive_eq` proves to be exactly the cap-length prefix of
the uncapped traversal. -/
theorem c7_search_cap (p : SearchParams) (root : FsTree) (r : ToolResult)
    (h : fileSearchExecute p root = .ok r) :
    ∃ query, jAsStr p.query = some query
      ∧ lookupData "total" r.data =
          some (.num (searchResultsOf p root query).length)
      ∧ lookupData "matches" r.data =
          some (.arr ((searchResultsOf p root query).map matchJson))
      ∧ (searchResultsOf p root query).length ≤ (jAsU64 p.max_results).getD 30
      ∧ ((jAsU64 p.max_results).getD 30 < (searchAllOf p root query).length →
          (searchResultsOf p root query).length =
            (jAsU64 p.max_results).getD 30) := by
  unfold fileSearchExecute at h
  cases hq : jAsStr p.query with
  | none => rw [hq] at h; simp at h
  | some query =>
    rw [hq] at h
    dsimp only at h
    simp only [Except.ok.injEq] at h
    subst h
    have hlen : (searchResultsOf p root query).length =
        min ((jAsU64 p.max_results).getD 30) (searchAllOf p root query).length := by
      unfold searchResultsOf searchAllOf
      exact search_content_recursive_length _ _ _ _ _ _
    refine ⟨query, rfl, ?_, ?_, ?_, ?_⟩
    · rw [lookupData, if_neg (by decide), lookupData, if_pos rfl]
    · rw [lookupData, if_pos rfl]
    · omega
    · intro hmore; omega

def c7WitnessParams : SearchParams :=
  ⟨some (.str "a"), some (.str "root"), none, none, some (.num 2)⟩

def c7WitnessTree : FsTree := .file (some "a\na\na")

def c7WitnessResult : ToolResult :=
  { success := true,
    data := [("matches",
              .arr [matchJson ⟨"root", 1, "a"⟩, matchJson ⟨"root", 2, "a"⟩]),
             ("total", .num 2), ("query", .str "a")],
    message := searchMsg 2 "a" }

/-- Witness for C7: a three-match file searched with a cap of 2 returns
exactly 2 matches. -/
theorem c7_witness :
    ∃ query, jAsStr c7WitnessParams.query = some query
      ∧ lookupData "total" c7WitnessResult.data =
          some (.num (searchResultsOf c7WitnessParams c7WitnessTree query).length)
      ∧ lookupData "matches" c7WitnessResult.data =
          some (.arr ((searchResultsOf c7WitnessParams c7WitnessTree query).map
            matchJson))
      ∧ (searchResultsOf c7WitnessParams c7WitnessTree query).length ≤
          (jAsU64 c7WitnessParams.max_results).getD 30
      ∧ ((jAsU64 c7WitnessParams.max_results).getD 30 <
            (searchAllOf c7WitnessParams c7WitnessTree query).length →
          (searchResultsOf c7WitnessParams c7WitnessTree query).length =
            (jAsU64 c7WitnessParams.max_results).getD 30) :=
  c7_search_cap c7WitnessParams c7WitnessTree c7WitnessResult rfl

/-! ### The remaining CRUD operations

These four tools matter to the claims only through the position of their
parameter validation, so their filesystem interaction is reduced to the
smallest state that distinguishes their outcomes: a path kind for delete
and directory-create, existence data for move and copy. OS error texts are
abstracted to placeholders as before. -/

inductive PathKind where
  | missing : PathKind
  | regFile : PathKind
  | emptyDir : PathKind
  | nonEmptyDir : PathKind
  | otherKind : PathKind

structure DeleteParams where
  path : Option JsonValue
  recursive : Option JsonValue

structure DeleteOutcome where
  result : Except ToolError ToolResult
  state : PathKind

def deleteDirResult (path : String) (recursive : Bool) : ToolResult :=
  { success := true,
    data := [("path", .str path), ("type", .str "directory"),
             ("recursive", .bool recursive)],
    message := "Dossier supprimé: " ++ path }

/-- `FileDeleteTool::execute`: validate `path`; a missing target fails; a
file is removed; a directory is removed recursively when requested, while
`remove_dir` on a non-empty directory fails and leaves it intact. -/
def fileDeleteExecute (p : DeleteParams) (s : PathKind) : DeleteOutcome :=
  match jAsStr p.path with
  | none => ⟨.error (.invalidParameters "path is required"), s⟩
  | some path =>
    let recursive := (jAsBool p.recursive).getD false
    match s with
    | .missing =>
      ⟨.error (.executionFailed
        ("Le chemin \x27" ++ path ++ "\x27 n\x27existe pas")), s⟩
    | .regFile =>
      ⟨.ok { success := true,
             data := [("path", .str path), ("type", .str "file")],
             message := "Fichier supprimé: " ++ path }, .missing⟩
    | .emptyDir => ⟨.ok (deleteDirResult path recursive), .missing⟩
    | .nonEmptyDir =>
      if recursive then ⟨.ok (deleteDirResult path recursive), .missing⟩
      else
        ⟨.error (.executionFailed
          "Dossier non vide. Utilisez recursive=true: <erreur E/S>"), s⟩
    | .otherKind =>
      ⟨.error (.executionFailed ("Type de chemin non supporté: " ++ path)), s⟩

structure MoveParams where
  source : Option JsonValue
  destination : Option JsonValue

structure MoveState where
  sourceExists : Bool
  destExists : Bool

structure MoveOutcome where
  result : Except ToolError ToolResult
  state : MoveState

/-- `FileMoveTool::execute`: validate `source` and `destination`; the
source must exist and the destination must not; parent-directory creation
has no observable effect in this model. -/
def fileMoveExecute (p : MoveParams) (s : MoveState) : MoveOutcome :=
  match jAsStr p.source with
  | none => ⟨.error (.invalidParameters "source is required"), s⟩
  | some source =>
    match jAsStr p.destination with
    | none => ⟨.error (.invalidParameters "destination is required"), s⟩
    | some destination =>
      if s.sourceExists = false then
        ⟨.error (.executionFailed
          ("Source \x27" ++ source ++ "\x27 n\x27existe pas")), s⟩
      else if s.destExists then
        ⟨.error (.executionFailed
          ("Destination \x27" ++ destination ++ "\x27 existe déjà")), s⟩
      else
        ⟨.ok { success := true,
               data := [("source", .str source),
                        ("destination", .str destination)],
               message := "Déplacé: " ++ source ++ " -> " ++ destination },
         ⟨false, true⟩⟩

structure CopyParams where
  source : Option JsonValue
  destination : Option JsonValue

structure CopyState where
  sourceSize : Option Nat
  destExists : Bool

structure CopyOutcome where
  result : Except ToolError ToolResult
  state : CopyState

/-- `FileCopyTool::execute`: validate `source` and `destination`; the
source must exist (its byte size is what `fs::copy` reports); the copy
overwrites the destination. -/
def fileCopyExecute (p : CopyParams) (s : CopyState) : CopyOutcome :=
  match jAsStr p.source with
  | none => ⟨.error (.invalidParameters "source is required"), s⟩
  | some source =>
    match jAsStr p.destination with
    | none => ⟨.error (.invalidParameters "destination is required"), s⟩
    | some destination =>
      match s.sourceSize with
      | none =>
        ⟨.error (.executionFailed
          ("Source \x27" ++ source ++ "\x27 n\x27existe pas")), s⟩
      | some bytes =>
        ⟨.ok { success := true,
               data := [("source", .str source),
                        ("destination", .str destination),
                        ("bytes", .num bytes)],
               message := "Copié: " ++ source ++ " -> " ++ destination ++
                 " (" ++ toString bytes ++ " octets)" },
         { s with destExists := true }⟩

structure MkdirParams where
  path : Option JsonValue

structure MkdirOutcome where
  result : Except ToolError ToolResult
  state : PathKind

/-- `DirectoryCreateTool::execute`: validate `path`; an existing directory
is a no-op success, an existing non-directory fails, otherwise the full
hierarchy is created. -/
def directoryCreateExecute (p : MkdirParams) (s : PathKind) : MkdirOutcome :=
  match jAsStr p.path with
  | none => ⟨.error (.invalidParameters "path is required"), s⟩
  | some path =>
    match s with
    | .emptyDir =>
      ⟨.ok { success := true,
             data := [("path", .str path), ("already_existed", .bool true)],
             message := "Le dossier existe déjà: " ++ path }, s⟩
    | .nonEmptyDir =>
      ⟨.ok { success := true,
             data := [("path", .str path), ("already_existed", .bool true)],
             message := "Le dossier existe déjà: " ++ path }, s⟩
    | .regFile =>
      ⟨.error (.executionFailed
        ("Un fichier existe déjà à ce chemin: " ++ path)), s⟩
    | .otherKind =>
      ⟨.error (.executionFailed
        ("Un fichier existe déjà à ce chemin: " ++ path)), s⟩
    | .missing =>
      ⟨.ok { success := true,
             data := [("path", .str path), ("created", .bool true)],
             message := "Dossier créé: " ++ path }, .emptyDir⟩

/-- Every `file_edit` run either succeeds or leaves the file untouched with
no write performed. -/
theorem fileEditExecute_ok_or_unchanged (p : EditParams) (f : Option String) :
    (∃ r, (fileEditExecute p f).result = .ok r)
    ∨ ((fileEditExecute p f).file = f ∧ (fileEditExecute p f).wrote = false) := by
  unfold fileEditExecute
  split
  · exact Or.inr ⟨rfl, rfl⟩
  · split
    · exact Or.inr ⟨rfl, rfl⟩
    · dsimp only
      split
      · exact Or.inr ⟨rfl, rfl⟩
      · split
        · exact Or.inr ⟨rfl, rfl⟩
        · exact Or.inl ⟨_, rfl⟩

/-- C5 amended: whenever any operation returns `InvalidParameters`, no
write has been performed (the target state is unchanged). For every
operation except `file_edit`, the `InvalidParameters` decision is
independent of the filesystem state, so it is taken before any I/O; for
`file_edit`, the missing-`path`/`new_string` checks are likewise
filesystem-independent (an `InvalidParameters` produced with an unreadable
target is produced identically for every target), but its mode-specific
parameter errors are raised only after the target file has been read
(`c5_counterexample` exhibits the read). -/
theorem c5_amended_no_write_before_invalid :
    (∀ (p : EditParams) (f : Option String) (m : String),
       (fileEditExecute p f).result = .error (.invalidParameters m) →
       (fileEditExecute p f).file = f ∧ (fileEditExecute p f).wrote = false)
    ∧ (∀ (p : EditParams) (m : String),
       (fileEditExecute p none).result = .error (.invalidParameters m) →
       ∀ f, (fileEditExecute p f).result = .error (.invalidParameters m))
    ∧ (∀ (p : CreateParams) (f : Option String) (m : String),
       (fileCreateExecute p f).result = .error (.invalidParameters m) →
       (fileCreateExecute p f).file = f ∧ (fileCreateExecute p f).wrote = false
       ∧ ∀ f2, (fileCreateExecute p f2).result = .error (.invalidParameters m))
    ∧ (∀ (p : DeleteParams) (s : PathKind) (m : String),
       (fileDeleteExecute p s).result = .error (.invalidParameters m) →
       (fileDeleteExecute p s).state = s
       ∧ ∀ s2, (fileDeleteExecute p s2).result = .error (.invalidParameters m))
    ∧ (∀ (p : MoveParams) (s : MoveState) (m : String),
       (fileMoveExecute p s).result = .error (.invalidParameters m) →
       (fileMoveExecute p s).state = s
       ∧ ∀ s2, (fileMoveExecute p s2).result = .error (.invalidParameters m))
    ∧ (∀ (p : CopyParams) (s : CopyState) (m : String),
       (fileCopyExecute p s).result = .error (.invalidParameters m) →
       (fileCopyExecute p s).state = s
       ∧ ∀ s2, (fileCopyExecute p s2).result = .error (.invalidParameters m))
    ∧ (∀ (p : MkdirParams) (s : PathKind) (m : String),
       (directoryCreateExecute p s).result = .error (.invalidParameters m) →
       (directoryCreateExecute p s).state = s
       ∧ ∀ s2, (directoryCreateExecute p s2).result = .error (.invalidParameters m))
    ∧ (∀ (p : InfoParams) (f : Option String) (m : String),
       fileInfoExecute p f = .error (.invalidParameters m) →
       ∀ f2, fileInfoExecute p f2 = .error (.invalidParameters m))
    ∧ (∀ (p : SearchParams) (t : FsTree) (m : String),
       fileSearchExecute p t = .error (.invalidParameters m) →
       ∀ t2, fileSearchExecute p t2 = .error (.invalidParameters m)) := by
  refine ⟨?_, ?_, ?_, ?_, ?_, ?_, ?_, ?_, ?_⟩
  · intro p f m h
    rcases fileEditExecute_ok_or_unchanged p f with ⟨r, hr⟩ | hok
    · rw [hr] at h; cases h
    · exact hok
  · intro p m h f
    unfold fileEditExecute at h ⊢
    cases hpath : jAsStr p.path with
    | none => rw [hpath] at h; exact h
    | some path =>
      rw [hpath] at h
      cases hns : jAsStr p.new_string with
      | none => rw [hns] at h; exact h
      | some ns =>
        rw [hns] at h
        dsimp only at h
        simp at h
  · intro p f m h
    unfold fileCreateExecute at h
    cases hpath : jAsStr p.path with
    | none =>
      rw [hpath] at h
      dsimp only at h
      simp only [Except.error.injEq, ToolError.invalidParameters.injEq] at h
      subst h
      refine ⟨?_, ?_, fun f2 => ?_⟩ <;> simp [fileCreateExecute, hpath]
    | some path =>
      rw [hpath] at h
      cases hcontent : jAsStr p.content with
      | none =>
        rw [hcontent] at h
        dsimp only at h
        simp only [Except.error.injEq, ToolError.invalidParameters.injEq] at h
        subst h
        refine ⟨?_, ?_, fun f2 => ?_⟩ <;>
          simp [fileCreateExecute, hpath, hcontent]
      | some content =>
        rw [hcontent] at h
        dsimp only at h
        exfalso
        split at h <;> simp at h
  · intro p s m h
    unfold fileDeleteExecute at h
    cases hpath : jAsStr p.path with
    | none =>
      rw [hpath] at h
      simp only [Except.error.injEq, ToolError.invalidParameters.injEq] at h
      subst h
      refine ⟨?_, fun s2 => ?_⟩ <;> simp [fileDeleteExecute, hpath]
    | some path =>
      rw [hpath] at h
      dsimp only at h
      exfalso
      cases s
      · simp at h
      · simp at h
      · simp at h
      · dsimp only at h
        by_cases hr : (jAsBool p.recursive).getD false = true
        · rw [if_pos hr] at h; simp at h
        · rw [if_neg hr] at h; simp at h
      · simp at h
  · intro p s m h
    unfold fileMoveExecute at h
    cases hsrc : jAsStr p.source with
    | none =>
      rw [hsrc] at h
      simp only [Except.error.injEq, ToolError.invalidParameters.injEq] at h
      subst h
      refine ⟨?_, fun s2 => ?_⟩ <;> simp [fileMoveExecute, hsrc]
    | some source =>
      rw [hsrc] at h
      cases hdst : jAsStr p.destination with
      | none =>
        rw [hdst] at h
        simp only [Except.error.injEq, ToolError.invalidParameters.injEq] at h
        subst h
        refine ⟨?_, fun s2 => ?_⟩ <;> simp [fileMoveExecute, hsrc, hdst]
      | some destination =>
        rw [hdst] at h
        dsimp only at h
        exfalso
        by_cases h1 : s.sourceExists = false
        · rw [if_pos h1] at h; simp at h
        · rw [if_neg h1] at h
          by_cases h2 : s.destExists = true
          · rw [if_pos h2] at h; simp at h
          · rw [if_neg h2] at h; simp at h
  · intro p s m h
    unfold fileCopyExecute at h
    cases hsrc : jAsStr p.source with
    | none =>
      rw [hsrc] at h
      simp only [Except.error.injEq, ToolError.invalidParameters.injEq] at h
      subst h
      refine ⟨?_, fun s2 => ?_⟩ <;> simp [fileCopyExecute, hsrc]
    | some source =>
      rw [hsrc] at h
      cases hdst : jAsStr p.destination with
      | none =>
        rw [hdst] at h
        simp only [Except.error.injEq, ToolError.invalidParameters.injEq] at h
        subst h
        refine ⟨?_, fun s2 => ?_⟩ <;> simp [fileCopyExecute, hsrc, hdst]
      | some destination =>
        rw [hdst] at h
        dsimp only at h
        exfalso
        cases hsz : s.sourceSize <;> rw [hsz] at h <;> simp at h
  · intro p s m h
    unfold directoryCreateExecute at h
    cases hpath : jAsStr p.path with
    | none =>
      rw [hpath] at h
      simp only [Except.error.injEq, ToolError.invalidParameters.injEq] at h
      subst h
      refine ⟨?_, fun s2 => ?_⟩ <;> simp [directoryCreateExecute, hpath]
    | some path =>
      rw [hpath] at h
      exfalso
      cases s <;> simp at h
  · intro p f m h f2
    unfold fileInfoExecute at h ⊢
    cases hpath : jAsStr p.path with
    | none => rw [hpath] at h; exact h
    | some path =>
      rw [hpath] at h
      exfalso
      cases f <;> simp at h
  · intro p t m h t2
    unfold fileSearchExecute at h ⊢
    cases hq : jAsStr p.query with
    | none => rw [hq] at h; exact h
    | some query =>
      rw [hq] at h
      simp at h
